import Mathlib

/-!
# Generator Tabajara: accident registry and generation tick

A shallow embedding of `src/generator/tabajara.go`.

* The Go map `Accidents map[string]Accident` is a function from keys to optional
  entries, wrapped in an `Option`: `none` is the nil map a struct literal leaves
  behind when the field is not set.  Reading or deleting from a nil map is
  harmless in Go, assigning into it is a runtime panic.
* A Go call that may panic returns an `Option`, with `none` for the panic.
* The `err error` result that every registry method declares is kept as a
  component of the result; `none` is the nil error.
* `float64` values are only stored, handed to the collector or converted with
  `int(...)`, never computed with.  A `Float64` is a finite value, given as a
  rational, or one of the infinities, or NaN.
* `int` is the 64-bit integer type.  `int(x)` truncates toward zero when the
  result fits; for any other `x` the Go specification leaves the result to the
  implementation, so it is a parameter, reduced into the range of `int`.
* The collector is write-only for this file, so a tick returns the list of
  observations it hands to the collector, in program order.
* The mutex is not modelled: every method body runs with the lock held from
  start to end, so the methods are atomic state transformers.
-/

namespace Generator

/-- The values of Go's `float64`: the finite ones as rationals, the two
infinities and NaN. -/
inductive Float64 where
  | fin (q : ℚ)
  | posInf
  | negInf
  | nan
  deriving DecidableEq

/-- Numerals denote finite values, as the Go constants `1.0` or `5` do. -/
instance (n : Nat) : OfNat Float64 n := ⟨.fin n⟩

/-- Accident is the record of an operator override.  The Go field `Type` is
spelled `Typ` because `Type` is reserved. -/
structure Accident where
  Typ : String
  ResourceName : String
  Value : Float64
  deriving DecidableEq

/-- Modelled from the spec: `Entropy` is declared outside `tabajara.go`; the
spec (section 3) gives four non-negative integer counts. -/
structure Entropy where
  URICount : Nat
  ServiceVersionCount : Nat
  AppVersionCount : Nat
  DeviceCount : Nat
  deriving DecidableEq

/-- The Go `error` results; `none` is nil. -/
abbrev GoError := Option String

/-- Tabajara is the generator state: the entropy and the accident map (`none`
is the nil map).  The collector pointer and the mutex carry no state of
interest. -/
structure Tabajara where
  Entropy : Entropy
  Accidents : Option (String → Option Accident)

/-- Package-level names that `tabajara.go` uses and other files of the package
declare: the two accident type constants of `accidenttypes`, the key builder
`GetAccidentKey`, and the deterministic helpers `hash` and `randomInt`; and
`intOutOfRange`, what the platform returns for `int(x)` when the truncation of
`x` does not fit `int` or `x` is not finite.  They are parameters of every
definition below. -/
structure Deps where
  Calls : String
  Latency : String
  GetAccidentKey : String → String → String
  hash : String → Nat
  randomInt : Int → Int → Int
  intOutOfRange : Float64 → Int

/-- The entry stored under a key, `none` when the key is absent or the map is
nil (`m[k]` with the comma-ok form). -/
def Tabajara.entry (gen : Tabajara) (k : String) : Option Accident :=
  match gen.Accidents with
  | none => none
  | some m => m k

/-- NewGeneratorTabajara sets `Collector` and `Entropy` only; `Accidents` keeps
its zero value, the nil map. -/
def NewGeneratorTabajara (entropy : Entropy) : Tabajara :=
  { Entropy := entropy, Accidents := none }

/-- CreateAccident assigns `accident` at
`GetAccidentKey(accident.Type, accident.ResourceName)`.  Assigning into a nil
map panics (`none`); otherwise the named result `err` is returned unset. -/
def CreateAccident (H : Deps) (gen : Tabajara) (accident : Accident) :
    Option (Tabajara × GoError) :=
  match gen.Accidents with
  | none => none
  | some m =>
    some ({ gen with
            Accidents := some (Function.update m
              (H.GetAccidentKey accident.Typ accident.ResourceName) (some accident)) },
          none)

/-- DeleteAccident runs `delete` at `GetAccidentKey(accidentType, resourceName)`;
`delete` on a nil map does nothing. -/
def DeleteAccident (H : Deps) (gen : Tabajara) (accidentType resourceName : String) :
    Tabajara × GoError :=
  ({ gen with
     Accidents := gen.Accidents.map
       (fun m => Function.update m (H.GetAccidentKey accidentType resourceName) none) },
   none)

/-- DeleteAccidents replaces the map by a fresh empty one. -/
def DeleteAccidents (gen : Tabajara) : Tabajara × GoError :=
  ({ gen with Accidents := some (fun _ => none) }, none)

/-- SetEntropy replaces the entropy. -/
def SetEntropy (gen : Tabajara) (e : Entropy) : Tabajara × GoError :=
  ({ gen with Entropy := e }, none)

/-- The lookup `getValueAccident` of the generator: it reads the map at
`GetAccidentKey(resourceName, accidentType)` and returns the stored value, or
`defaultValue` when nothing is stored there. -/
def getValueAccident (H : Deps) (gen : Tabajara) (accidentType : String)
    (defaultValue : Float64) (resourceName : String) : Float64 :=
  match gen.entry (H.GetAccidentKey resourceName accidentType) with
  | some accident => accident.Value
  | none => defaultValue

/-! ## The generation tick -/

/-- Modelled from the spec: `generateItems` is declared outside `tabajara.go`.
Section 4.1: `count` labels `pfx + index` for the indices below `count`, in
order, and for `count = 0` the single fallback item `pfx`. -/
def generateItems (pfx : String) (count : Nat) : List String :=
  if count = 0 then [pfx] else (List.range count).map (fun i => pfx ++ toString i)

/-- Modelled from the spec: `getRandomElemNormal` is declared outside
`tabajara.go`.  Section 4.1 (`pickNormal`): it returns one element of a
non-empty sequence and fails on an empty one.  `draw` is the number the sampler
draws; it is reduced to a position of the sequence. -/
def getRandomElemNormal (draw : Nat) (items : List String) : Option String :=
  if items.length = 0 then none else items[draw % items.length]?

/-- The random draws of one tick, in the order `FillMetrics` makes them: the uri
and the service version once, then per call (by loop index) the app version, the
device, the os, the status and the baseline latency `getSampleRequestTime(uri)`,
and last the `randomRangeNormal(0, 400)` of the pending-requests gauge. -/
structure Rand where
  uri : Nat
  serviceVersion : Nat
  appVersion : Nat → Nat
  device : Nat → Nat
  os : Nat → Nat
  status : Nat → Nat
  getSampleRequestTime : Nat → String → Float64
  randomRangeNormal : Int

/-- What the generator hands to the collector: the metric, the label values
given to `WithLabelValues`, and the value for `Observe` and `Set`. -/
inductive Emission where
  | HTTPRequestsPerServiceVersion (labels : List String) (value : Float64)
  | HTTPRequestsPerAppVersion (labels : List String)
  | HTTPPendingRequests (labels : List String) (value : Float64)
  | HTTPRequestsPerDevice (labels : List String)
  deriving DecidableEq

/-- A latency observation of the requests-per-service-version metric. -/
def Emission.isHTTPRequestsPerServiceVersion : Emission → Bool
  | .HTTPRequestsPerServiceVersion _ _ => true
  | _ => false

/-- An increment of the requests-per-app-version counter. -/
def Emission.isHTTPRequestsPerAppVersion : Emission → Bool
  | .HTTPRequestsPerAppVersion _ => true
  | _ => false

/-- A set of the pending-requests gauge. -/
def Emission.isHTTPPendingRequests : Emission → Bool
  | .HTTPPendingRequests _ _ => true
  | _ => false

/-- An increment of the requests-per-device counter. -/
def Emission.isHTTPRequestsPerDevice : Emission → Bool
  | .HTTPRequestsPerDevice _ => true
  | _ => false

/-- The local `statuses` of `FillMetrics`. -/
def statuses : List String := ["4xx", "2xx", "5xx"]

/-- The local `methods` of `FillMetrics`. -/
def methods : List String := ["POST", "GET", "DELETE", "PUT"]

/-- The local `oss` of `FillMetrics`. -/
def oss : List String := ["ios", "android"]

/-- Go slice indexing `xs[i]` with an `int` index: a panic (`none`) outside
`0 <= i < len(xs)`. -/
def sliceIndex (xs : List String) (i : Int) : Option String :=
  if 0 ≤ i then xs[i.toNat]? else none

/-- The least value of the 64-bit `int`. -/
def minInt : Int := -9223372036854775808

/-- The greatest value of the 64-bit `int`. -/
def maxInt : Int := 9223372036854775807

/-- Reduction of an integer into the range of `int` (two's complement). -/
def wrapInt (v : Int) : Int := (v - minInt) % 18446744073709551616 + minInt

/-- The conversion `int(x)` of line 96: truncation toward zero for a finite
value whose truncation fits `int`; otherwise the value the platform gives, which
is some `int`. -/
def truncInt (H : Deps) : Float64 → Int
  | .fin q =>
    if minInt ≤ Int.tdiv q.num q.den ∧ Int.tdiv q.num q.den ≤ maxInt then
      Int.tdiv q.num q.den
    else wrapInt (H.intOutOfRange (.fin q))
  | x => wrapInt (H.intOutOfRange x)

def getUris (gen : Tabajara) : List String :=
  generateItems "/resource/test-" gen.Entropy.URICount

def getServiceVersions (gen : Tabajara) : List String :=
  generateItems "backend-v" gen.Entropy.ServiceVersionCount

def getAppVersions (gen : Tabajara) : List String :=
  generateItems "v" gen.Entropy.AppVersionCount

def getDevices (gen : Tabajara) : List String :=
  generateItems "-" gen.Entropy.DeviceCount

/-- FillHTTPRequestsPerServiceVersion observes
`getValueAccident(Latency, getSampleRequestTime(uri), uri)` under the labels
`uri, method, status, serviceVersion`; `sample` is the drawn baseline. -/
def FillHTTPRequestsPerServiceVersion (H : Deps) (gen : Tabajara) (sample : Float64)
    (uri method status serviceVersion : String) : Emission :=
  .HTTPRequestsPerServiceVersion [uri, method, status, serviceVersion]
    (getValueAccident H gen H.Latency sample uri)

def FillHTTPRequestsPerAppVersion (uri method status appVersion : String) : Emission :=
  .HTTPRequestsPerAppVersion [uri, method, status, appVersion]

/-- FillHTTPPendingRequests sets the gauge to `float64(randomRangeNormal(0, 400))`. -/
def FillHTTPPendingRequests (R : Rand) (serviceVersion : String) : Emission :=
  .HTTPPendingRequests [serviceVersion] (.fin R.randomRangeNormal)

def FillHTTPRequestsPerDevice (uri method status os device : String) : Emission :=
  .HTTPRequestsPerDevice [uri, method, status, os ++ device]

/-- The method of a tick: `methods[randomInt(int64(hash(uri)), len(methods))]`. -/
def pickMethod (H : Deps) (uri : String) : Option String :=
  sliceIndex methods (H.randomInt (H.hash uri : Int) (methods.length : Int))

/-- The body of the call loop of `FillMetrics` at loop index `i`. -/
def callBody (H : Deps) (R : Rand) (gen : Tabajara) (uri serviceVersion : String)
    (i : Nat) : Option (List Emission) :=
  match getRandomElemNormal (R.appVersion i) (getAppVersions gen) with
  | none => none
  | some appVersion =>
  match getRandomElemNormal (R.device i) (getDevices gen) with
  | none => none
  | some device =>
  match getRandomElemNormal (R.os i) oss with
  | none => none
  | some os =>
  match pickMethod H uri with
  | none => none
  | some method =>
  match getRandomElemNormal (R.status i) statuses with
  | none => none
  | some status =>
    some [FillHTTPRequestsPerServiceVersion H gen (R.getSampleRequestTime i uri)
            uri method status serviceVersion,
          FillHTTPRequestsPerAppVersion uri method status appVersion,
          FillHTTPRequestsPerDevice uri method status os device]

/-- The loop `for i := 0; i < calls; i++`, as `k` iterations from index `i`. -/
def callLoop (H : Deps) (R : Rand) (gen : Tabajara) (uri serviceVersion : String) :
    Nat → Nat → Option (List Emission)
  | _, 0 => some []
  | i, k + 1 =>
    match callBody H R gen uri serviceVersion i with
    | none => none
    | some es =>
      match callLoop H R gen uri serviceVersion (i + 1) k with
      | none => none
      | some rest => some (es ++ rest)

/-- The call volume of a tick for the picked uri:
`int(gen.getValueAccident(accidenttypes.Calls, 1.0, uri))`. -/
def calls (H : Deps) (gen : Tabajara) (uri : String) : Int :=
  truncInt H (getValueAccident H gen H.Calls 1 uri)

/-- FillMetrics is one tick.  The result is the list of observations in program
order, or `none` when the tick panics.  The tick does not change the generator
state. -/
def FillMetrics (H : Deps) (R : Rand) (gen : Tabajara) : Option (List Emission) :=
  match getRandomElemNormal R.uri (getUris gen) with
  | none => none
  | some uri =>
  match getRandomElemNormal R.serviceVersion (getServiceVersions gen) with
  | none => none
  | some serviceVersion =>
  match callLoop H R gen uri serviceVersion 0 (calls H gen uri).toNat with
  | none => none
  | some es => some (es ++ [FillHTTPPendingRequests R serviceVersion])

/-! ## Concrete instances used to evaluate the definitions -/

/-- Modelled from the spec: `GetAccidentKey` is declared outside `tabajara.go`.
Sections 3 and 9 describe the key as a composite of its two arguments that
depends on their order; it is taken here as the two arguments joined by a
separator, first argument first. -/
def GetAccidentKey (a b : String) : String := a ++ "|" ++ b

/-- Modelled from the spec: `randomInt` is declared outside `tabajara.go`.
Section 4.1 (`pickUniformIndex`): a position below the bound that is a function
of the seed. -/
def randomInt (seed bound : Int) : Int := seed % bound

/-- An instance of the package-level names: the accident types named as in the
spec, the composite key above, the length of the label as its hash, and the
least `int` for every conversion that does not fit (what amd64 returns). -/
def specDeps : Deps :=
  { Calls := "Calls", Latency := "Latency", GetAccidentKey := GetAccidentKey,
    hash := String.length, randomInt := randomInt, intOutOfRange := fun _ => minInt }

/-- A tick in which every draw is zero and the baseline latency is 1/4. -/
def zeroRand : Rand :=
  { uri := 0, serviceVersion := 0, appVersion := fun _ => 0, device := fun _ => 0,
    os := fun _ => 0, status := fun _ => 0, getSampleRequestTime := fun _ _ => .fin (mkRat 1 4),
    randomRangeNormal := 200 }

/-- The entropy of the end-to-end scenario. -/
def unitEntropy : Entropy :=
  { URICount := 1, ServiceVersionCount := 1, AppVersionCount := 1, DeviceCount := 1 }

/-- The generator after `DeleteAccidents` on a fresh generator with the entropy
of the end-to-end scenario: the registry is an empty, non-nil map. -/
def emptyGen : Tabajara := (DeleteAccidents (NewGeneratorTabajara unitEntropy)).1

/-- The bound the spec puts on `randomInt`: a result in `[0, bound)` for a
positive bound. -/
def Deps.randomIntInRange (H : Deps) : Prop :=
  ∀ seed bound : Int, 0 < bound → 0 ≤ H.randomInt seed bound ∧ H.randomInt seed bound < bound

/-! ## The accident registry -/

theorem CreateAccident_of_some (H : Deps) (gen : Tabajara) (m : String → Option Accident)
    (hm : gen.Accidents = some m) (a : Accident) :
    CreateAccident H gen a =
      some ({ gen with
              Accidents := some (Function.update m
                (H.GetAccidentKey a.Typ a.ResourceName) (some a)) }, none) := by
  simp [CreateAccident, hm]

/-- A lookup whose key differs from the key an accident is stored under does not
see that accident. -/
theorem getValueAccident_CreateAccident_of_ne (H : Deps) (gen gen' : Tabajara)
    (err : GoError) (a : Accident) (t r : String) (d : Float64)
    (hc : CreateAccident H gen a = some (gen', err))
    (hk : H.GetAccidentKey r t ≠ H.GetAccidentKey a.Typ a.ResourceName) :
    getValueAccident H gen' t d r = getValueAccident H gen t d r := by
  cases hm : gen.Accidents with
  | none => simp [CreateAccident, hm] at hc
  | some m =>
    rw [CreateAccident_of_some H gen m hm] at hc
    obtain ⟨rfl, _⟩ := Prod.mk.inj (Option.some.inj hc)
    simp [getValueAccident, Tabajara.entry, hm, Function.update_noteq hk]

/-- C4: on a freshly constructed generator `CreateAccident` does not complete:
the constructor leaves `Accidents` nil and the assignment panics, for every
entropy and accident; once `DeleteAccidents` has run, the same call returns a
nil error and the accident is stored under its key. -/
theorem CreateAccident_fresh_panics (H : Deps) (entropy : Entropy) (a : Accident) :
    CreateAccident H (NewGeneratorTabajara entropy) a = none ∧
    ∃ gen', CreateAccident H (DeleteAccidents (NewGeneratorTabajara entropy)).1 a
        = some (gen', none) ∧
      gen'.entry (H.GetAccidentKey a.Typ a.ResourceName) = some a := by
  refine ⟨rfl, _, rfl, ?_⟩
  simp [Tabajara.entry]

/-- C5: after `DeleteAccidents` the registry is empty, every lookup returns its
default, the error is nil and the entropy is the one before the call. -/
theorem DeleteAccidents_clears (H : Deps) (gen : Tabajara) (t r : String) (d : Float64) :
    (DeleteAccidents gen).2 = none ∧
    (DeleteAccidents gen).1.Entropy = gen.Entropy ∧
    (∀ k, (DeleteAccidents gen).1.entry k = none) ∧
    getValueAccident H (DeleteAccidents gen).1 t d r = d := by
  refine ⟨rfl, rfl, fun k => rfl, rfl⟩

/-- C6: `DeleteAccident(t, r)` returns a nil error; with no entry under the key
of `(t, r)` the generator is unchanged; otherwise the entry under that key is
gone and the entry under every other key, the entropy and the nil-ness of the
map are as before. -/
theorem DeleteAccident_spec (H : Deps) (gen : Tabajara) (t r : String) :
    (DeleteAccident H gen t r).2 = none ∧
    (gen.entry (H.GetAccidentKey t r) = none → (DeleteAccident H gen t r).1 = gen) ∧
    (DeleteAccident H gen t r).1.entry (H.GetAccidentKey t r) = none ∧
    (∀ k, k ≠ H.GetAccidentKey t r →
      (DeleteAccident H gen t r).1.entry k = gen.entry k) ∧
    (DeleteAccident H gen t r).1.Entropy = gen.Entropy ∧
    (DeleteAccident H gen t r).1.Accidents.isSome = gen.Accidents.isSome := by
  obtain ⟨e, acc⟩ := gen
  cases acc with
  | none =>
    refine ⟨rfl, fun _ => rfl, rfl, fun _ _ => rfl, rfl, rfl⟩
  | some m =>
    refine ⟨rfl, ?_, ?_, ?_, rfl, rfl⟩
    · intro h
      have hk : m (H.GetAccidentKey t r) = none := h
      simp only [DeleteAccident, Option.map_some']
      rw [← hk, Function.update_eq_self]
    · simp [DeleteAccident, Tabajara.entry]
    · intro k hk
      simp [DeleteAccident, Tabajara.entry, Function.update_noteq hk]

/-- C7: on a generator whose map is not nil, creating `b` after `a` with the
same resource name and type gives the state and result of creating `b` alone,
creating `a` twice gives the state and result of creating it once, the one entry
under the key is the last accident written, and entries under other keys are
unchanged. -/
theorem CreateAccident_overwrite (H : Deps) (gen : Tabajara)
    (m : String → Option Accident) (a b : Accident)
    (hm : gen.Accidents = some m)
    (hr : a.ResourceName = b.ResourceName) (ht : a.Typ = b.Typ) :
    (CreateAccident H gen a).bind (fun p => CreateAccident H p.1 b)
      = CreateAccident H gen b ∧
    (CreateAccident H gen a).bind (fun p => CreateAccident H p.1 a)
      = CreateAccident H gen a ∧
    ∃ gen', CreateAccident H gen b = some (gen', none) ∧
      gen'.entry (H.GetAccidentKey b.Typ b.ResourceName) = some b ∧
      gen'.Entropy = gen.Entropy ∧
      ∀ k, k ≠ H.GetAccidentKey b.Typ b.ResourceName → gen'.entry k = gen.entry k := by
  refine ⟨?_, ?_, _, CreateAccident_of_some H gen m hm b, ?_, rfl, ?_⟩
  · rw [CreateAccident_of_some H gen m hm a, CreateAccident_of_some H gen m hm b,
      Option.some_bind, CreateAccident_of_some H _ _ rfl b, hr, ht, Function.update_idem]
  · rw [CreateAccident_of_some H gen m hm a, Option.some_bind,
      CreateAccident_of_some H _ _ rfl a, Function.update_idem]
  · simp [Tabajara.entry]
  · intro k hk
    simp [Tabajara.entry, hm, Function.update_noteq hk]

/-- Witness for C7 on the empty registry: a latency accident of value 2 written
over one of value 1 for the same resource. -/
theorem CreateAccident_overwrite_witness :
    (CreateAccident specDeps emptyGen ⟨"Latency", "/r", 1⟩).bind
        (fun p => CreateAccident specDeps p.1 ⟨"Latency", "/r", 2⟩)
      = CreateAccident specDeps emptyGen ⟨"Latency", "/r", 2⟩ ∧
    (CreateAccident specDeps emptyGen ⟨"Latency", "/r", 1⟩).bind
        (fun p => CreateAccident specDeps p.1 ⟨"Latency", "/r", 1⟩)
      = CreateAccident specDeps emptyGen ⟨"Latency", "/r", 1⟩ ∧
    ∃ gen', CreateAccident specDeps emptyGen ⟨"Latency", "/r", 2⟩ = some (gen', none) ∧
      gen'.entry (specDeps.GetAccidentKey "Latency" "/r") = some ⟨"Latency", "/r", 2⟩ ∧
      gen'.Entropy = emptyGen.Entropy ∧
      ∀ k, k ≠ specDeps.GetAccidentKey "Latency" "/r" → gen'.entry k = emptyGen.entry k :=
  CreateAccident_overwrite specDeps emptyGen (fun _ => none)
    ⟨"Latency", "/r", 1⟩ ⟨"Latency", "/r", 2⟩ rfl rfl rfl

/-! ## The generation tick -/

theorem generateItems_ne_nil (pfx : String) (count : Nat) : generateItems pfx count ≠ [] := by
  unfold generateItems
  split
  · simp
  · simpa using ‹¬count = 0›

theorem getRandomElemNormal_some (draw : Nat) (items : List String) (h : items ≠ []) :
    ∃ x, getRandomElemNormal draw items = some x ∧ x ∈ items := by
  have hlen : 0 < items.length := List.length_pos.mpr h
  have hlt : draw % items.length < items.length := Nat.mod_lt _ hlen
  refine ⟨items[draw % items.length], ?_, List.getElem_mem _⟩
  simp [getRandomElemNormal, Nat.pos_iff_ne_zero.mp hlen, List.getElem?_eq_getElem hlt]

theorem getRandomElemNormal_singleton (draw : Nat) (x : String) :
    getRandomElemNormal draw [x] = some x := by
  simp [getRandomElemNormal, Nat.mod_one]

theorem pickMethod_some (H : Deps) (hr : H.randomIntInRange) (uri : String) :
    ∃ method, pickMethod H uri = some method ∧ method ∈ methods := by
  obtain ⟨h0, h1⟩ := hr (H.hash uri : Int) (methods.length : Int) (by decide)
  have hlt : (H.randomInt (H.hash uri : Int) (methods.length : Int)).toNat < methods.length := by
    omega
  refine ⟨methods[(H.randomInt (H.hash uri : Int) (methods.length : Int)).toNat], ?_,
    List.getElem_mem _⟩
  simp [pickMethod, sliceIndex, h0, List.getElem?_eq_getElem hlt]

/-- The three observations of one call, given the labels picked for it. -/
theorem callBody_some (H : Deps) (hr : H.randomIntInRange) (R : Rand) (gen : Tabajara)
    (uri serviceVersion : String) (i : Nat) :
    ∃ method status appVersion os device,
      pickMethod H uri = some method ∧ status ∈ statuses ∧
      appVersion ∈ getAppVersions gen ∧ os ∈ oss ∧ device ∈ getDevices gen ∧
      callBody H R gen uri serviceVersion i =
        some [.HTTPRequestsPerServiceVersion [uri, method, status, serviceVersion]
                (getValueAccident H gen H.Latency (R.getSampleRequestTime i uri) uri),
              .HTTPRequestsPerAppVersion [uri, method, status, appVersion],
              .HTTPRequestsPerDevice [uri, method, status, os ++ device]] := by
  obtain ⟨app, happ, happm⟩ :=
    getRandomElemNormal_some (R.appVersion i) (getAppVersions gen) (generateItems_ne_nil _ _)
  obtain ⟨dev, hdev, hdevm⟩ :=
    getRandomElemNormal_some (R.device i) (getDevices gen) (generateItems_ne_nil _ _)
  obtain ⟨os, hos, hosm⟩ := getRandomElemNormal_some (R.os i) oss (by decide)
  obtain ⟨st, hst, hstm⟩ := getRandomElemNormal_some (R.status i) statuses (by decide)
  obtain ⟨m, hm, _⟩ := pickMethod_some H hr uri
  refine ⟨m, st, app, os, dev, hm, hstm, happm, hosm, hdevm, ?_⟩
  simp [callBody, happ, hdev, hos, hst, hm, FillHTTPRequestsPerServiceVersion,
    FillHTTPRequestsPerAppVersion, FillHTTPRequestsPerDevice]

/-- The call loop runs to its end and emits, for each loop index in order, the
three observations of that call. -/
theorem callLoop_eq (H : Deps) (hr : H.randomIntInRange) (R : Rand) (gen : Tabajara)
    (uri serviceVersion : String) :
    ∃ (method : String) (status appVersion os device : Nat → String),
      pickMethod H uri = some method ∧
      (∀ i, status i ∈ statuses ∧ appVersion i ∈ getAppVersions gen ∧
        os i ∈ oss ∧ device i ∈ getDevices gen) ∧
      ∀ k i, callLoop H R gen uri serviceVersion i k =
        some ((List.range k).flatMap (fun j =>
          [.HTTPRequestsPerServiceVersion [uri, method, status (i + j), serviceVersion]
              (getValueAccident H gen H.Latency (R.getSampleRequestTime (i + j) uri) uri),
            .HTTPRequestsPerAppVersion [uri, method, status (i + j), appVersion (i + j)],
            .HTTPRequestsPerDevice [uri, method, status (i + j),
              os (i + j) ++ device (i + j)]])) := by
  choose mth st app os dev hm hst happ hos hdev hbody using
    callBody_some H hr R gen uri serviceVersion
  have hmeq : ∀ i, mth i = mth 0 := fun i =>
    Option.some.inj ((hm i).symm.trans (hm 0))
  refine ⟨mth 0, st, app, os, dev, hm 0, fun i => ⟨hst i, happ i, hos i, hdev i⟩, ?_⟩
  intro k
  induction k with
  | zero => intro i; simp [callLoop]
  | succ k ih =>
    intro i
    have hb := hbody i
    rw [hmeq i] at hb
    simp only [callLoop, hb, ih (i + 1), List.range_succ_eq_map, List.flatMap_cons,
      List.flatMap_map, Nat.add_zero]
    congr 2
    refine congrArg (fun f => List.flatMap (List.range k) f) ?_
    funext j
    simp only [Function.comp, Nat.succ_eq_add_one]
    rw [show i + 1 + j = i + (j + 1) by omega]

theorem countP_flatMap_one (p : Emission → Bool) (f : Nat → List Emission)
    (hf : ∀ j, (f j).countP p = 1) (l : List Nat) :
    (l.flatMap f).countP p = l.length := by
  induction l with
  | nil => simp
  | cons a l ih => simp [List.flatMap_cons, hf a, ih, Nat.add_comm]

theorem countP_flatMap_zero (p : Emission → Bool) (f : Nat → List Emission)
    (hf : ∀ j, (f j).countP p = 0) (l : List Nat) :
    (l.flatMap f).countP p = 0 := by
  induction l with
  | nil => simp
  | cons a l ih => simp [List.flatMap_cons, hf a, ih]

/-- The whole tick: the picked uri and service version, the method, and the
observations in program order. -/
theorem FillMetrics_eq (H : Deps) (hr : H.randomIntInRange) (R : Rand) (gen : Tabajara) :
    ∃ (uri serviceVersion method : String) (status appVersion os device : Nat → String),
      getRandomElemNormal R.uri (getUris gen) = some uri ∧
      getRandomElemNormal R.serviceVersion (getServiceVersions gen) = some serviceVersion ∧
      uri ∈ getUris gen ∧ serviceVersion ∈ getServiceVersions gen ∧
      pickMethod H uri = some method ∧ method ∈ methods ∧
      (∀ i, status i ∈ statuses ∧ appVersion i ∈ getAppVersions gen ∧
        os i ∈ oss ∧ device i ∈ getDevices gen) ∧
      FillMetrics H R gen =
        some ((List.range (calls H gen uri).toNat).flatMap (fun i =>
          [.HTTPRequestsPerServiceVersion [uri, method, status i, serviceVersion]
              (getValueAccident H gen H.Latency (R.getSampleRequestTime i uri) uri),
            .HTTPRequestsPerAppVersion [uri, method, status i, appVersion i],
            .HTTPRequestsPerDevice [uri, method, status i, os i ++ device i]])
          ++ [.HTTPPendingRequests [serviceVersion] (.fin R.randomRangeNormal)]) := by
  obtain ⟨uri, huri, hurim⟩ :=
    getRandomElemNormal_some R.uri (getUris gen) (generateItems_ne_nil _ _)
  obtain ⟨sv, hsv, hsvm⟩ :=
    getRandomElemNormal_some R.serviceVersion (getServiceVersions gen)
      (generateItems_ne_nil _ _)
  obtain ⟨m, st, app, os, dev, hm, hmem, hloop⟩ := callLoop_eq H hr R gen uri sv
  obtain ⟨m', hm', hmm⟩ := pickMethod_some H hr uri
  have hmm : m ∈ methods := by
    rw [Option.some.inj (hm.symm.trans hm')]; exact hmm
  refine ⟨uri, sv, m, st, app, os, dev, huri, hsv, hurim, hsvm, hm, hmm, hmem, ?_⟩
  have h := hloop (calls H gen uri).toNat 0
  simp only [Nat.zero_add] at h
  simp [FillMetrics, huri, hsv, h, FillHTTPPendingRequests]

/-- The conversion of the default volume `1.0`. -/
theorem truncInt_one (H : Deps) : truncInt H 1 = 1 := by
  show (if minInt ≤ Int.tdiv (1 : ℚ).num (1 : ℚ).den ∧
      Int.tdiv (1 : ℚ).num (1 : ℚ).den ≤ maxInt then
        Int.tdiv (1 : ℚ).num (1 : ℚ).den
      else wrapInt (H.intOutOfRange (.fin 1))) = 1
  rw [if_pos (by decide)]
  decide

/-- The result of `wrapInt` is an `int`. -/
theorem wrapInt_range (v : Int) : minInt ≤ wrapInt v ∧ wrapInt v ≤ maxInt := by
  unfold wrapInt minInt maxInt
  omega

/-- The call volume is an `int`, whatever is stored in the registry. -/
theorem calls_range (H : Deps) (gen : Tabajara) (uri : String) :
    minInt ≤ calls H gen uri ∧ calls H gen uri ≤ maxInt := by
  unfold calls truncInt
  split
  · split
    · assumption
    · exact wrapInt_range _
  · exact wrapInt_range _

/-- A calls value of 10^19 stored under the key the lookup reads does not fit
`int`: the conversion gives the platform's value, here the least `int`, the loop
does not run and the tick emits the gauge alone. -/
theorem calls_out_of_range_example :
    (CreateAccident specDeps emptyGen
        ⟨"/resource/test-0", "Calls", 10000000000000000000⟩).map
        (fun p => (calls specDeps p.1 "/resource/test-0", FillMetrics specDeps zeroRand p.1))
      = some (minInt, some [.HTTPPendingRequests ["backend-v0"] 200]) := by
  decide

theorem specDeps_randomIntInRange : specDeps.randomIntInRange := by
  intro seed bound hb
  exact ⟨Int.emod_nonneg seed (by omega), Int.emod_lt_of_pos seed hb⟩

/-- C1: on an empty, non-nil registry `CreateAccident` of a latency accident of
value 5 for `/resource/test-0` returns a nil error, and afterwards the lookup
for that uri still returns its default (1/4 here) and the latency observation of
the next tick carries the sampled 1/4, not 5. -/
theorem latency_accident_not_applied :
    (CreateAccident specDeps emptyGen ⟨"Latency", "/resource/test-0", 5⟩).map
        (fun p => (p.2,
          getValueAccident specDeps p.1 "Latency" (.fin (mkRat 1 4)) "/resource/test-0",
          FillMetrics specDeps zeroRand p.1))
      = some (none, .fin (mkRat 1 4),
          some [.HTTPRequestsPerServiceVersion
                  ["/resource/test-0", "POST", "4xx", "backend-v0"] (.fin (mkRat 1 4)),
                .HTTPRequestsPerAppVersion ["/resource/test-0", "POST", "4xx", "v0"],
                .HTTPRequestsPerDevice ["/resource/test-0", "POST", "4xx", "ios-0"],
                .HTTPPendingRequests ["backend-v0"] 200]) := by
  decide

/-- C2: on an empty, non-nil registry, after `CreateAccident` of a calls
accident of value 3 for `/resource/test-0` the call volume of a tick that picks
that uri is 1 and the tick emits one latency observation, not three. -/
theorem calls_accident_not_applied :
    (CreateAccident specDeps emptyGen ⟨"Calls", "/resource/test-0", 3⟩).map
        (fun p => (calls specDeps p.1 "/resource/test-0",
          (FillMetrics specDeps zeroRand p.1).map
            (fun out => out.countP Emission.isHTTPRequestsPerServiceVersion)))
      = some (1, some 1) := by
  decide

/-- C3: the key `CreateAccident` stores a latency accident for `/r` under is not
the key the lookup for `(Latency, /r)` reads: after the create the entry is
under the first key, nothing is under the second, and the lookup returns its
default 0 instead of the stored 5; `DeleteAccident(Latency, /r)` removes the
entry under the first key. -/
theorem lookup_key_differs_from_storage_key :
    specDeps.GetAccidentKey "Latency" "/r" ≠ specDeps.GetAccidentKey "/r" "Latency" ∧
    (CreateAccident specDeps emptyGen ⟨"Latency", "/r", 5⟩).map
        (fun p => (p.1.entry (specDeps.GetAccidentKey "Latency" "/r"),
          p.1.entry (specDeps.GetAccidentKey "/r" "Latency"),
          getValueAccident specDeps p.1 "Latency" 0 "/r",
          (DeleteAccident specDeps p.1 "Latency" "/r").1.entry
            (specDeps.GetAccidentKey "Latency" "/r")))
      = some (some ⟨"Latency", "/r", 5⟩, none, 0, none) := by
  decide

/-- C8: a tick completes and, with `n` the number of times its loop runs for the
picked uri (the 64-bit `int` conversion of the calls value, 0 when that is
negative), hands the collector `n` latency observations, `n` app-version increments, `n` device
increments and one pending-requests set, which comes last, is the only
observation when `n = 0`, and is keyed by the service version picked from the
entropy alone.  With the entropy `1, 1, 1, 1` and no accident stored, `n = 1`
and the four observations carry `/resource/test-0`, `backend-v0`, `v0`, `-0`. -/
theorem FillMetrics_emissions (H : Deps) (R : Rand) (gen : Tabajara)
    (hr : H.randomIntInRange) :
    ∃ uri serviceVersion out,
      getRandomElemNormal R.uri (getUris gen) = some uri ∧
      getRandomElemNormal R.serviceVersion
        (generateItems "backend-v" gen.Entropy.ServiceVersionCount) = some serviceVersion ∧
      FillMetrics H R gen = some out ∧
      out.countP Emission.isHTTPRequestsPerServiceVersion = (calls H gen uri).toNat ∧
      out.countP Emission.isHTTPRequestsPerAppVersion = (calls H gen uri).toNat ∧
      out.countP Emission.isHTTPRequestsPerDevice = (calls H gen uri).toNat ∧
      out.countP Emission.isHTTPPendingRequests = 1 ∧
      out.getLast? = some (.HTTPPendingRequests [serviceVersion] (.fin R.randomRangeNormal)) ∧
      ((calls H gen uri).toNat = 0 →
        out = [.HTTPPendingRequests [serviceVersion] (.fin R.randomRangeNormal)]) ∧
      (gen.Entropy = unitEntropy → (∀ k, gen.entry k = none) →
        (calls H gen uri).toNat = 1 ∧ uri = "/resource/test-0" ∧
        serviceVersion = "backend-v0" ∧
        ∃ method status os, method ∈ methods ∧ status ∈ statuses ∧ os ∈ oss ∧
          out = [.HTTPRequestsPerServiceVersion
                    ["/resource/test-0", method, status, "backend-v0"]
                    (R.getSampleRequestTime 0 "/resource/test-0"),
                  .HTTPRequestsPerAppVersion ["/resource/test-0", method, status, "v0"],
                  .HTTPRequestsPerDevice ["/resource/test-0", method, status, os ++ "-0"],
                  .HTTPPendingRequests ["backend-v0"] (.fin R.randomRangeNormal)]) := by
  obtain ⟨uri, sv, m, st, app, os, dev, huri, hsv, -, -, -, hmm, hmem, hout⟩ :=
    FillMetrics_eq H hr R gen
  refine ⟨uri, sv, _, huri, hsv, hout, ?_, ?_, ?_, ?_, ?_, ?_, ?_⟩
  · rw [List.countP_append, countP_flatMap_one]
    · simp [Emission.isHTTPRequestsPerServiceVersion]
    · intro j; rfl
  · rw [List.countP_append, countP_flatMap_one]
    · simp [Emission.isHTTPRequestsPerAppVersion]
    · intro j; rfl
  · rw [List.countP_append, countP_flatMap_one]
    · simp [Emission.isHTTPRequestsPerDevice]
    · intro j; rfl
  · rw [List.countP_append, countP_flatMap_zero]
    · simp [Emission.isHTTPPendingRequests]
    · intro j; rfl
  · exact List.getLast?_concat _
  · intro h0
    simp [h0]
  · intro he hno
    have hu : uri = "/resource/test-0" := by
      have h1 : getUris gen = ["/resource/test-0"] := by
        simp only [getUris, he]; decide
      rw [h1, getRandomElemNormal_singleton] at huri
      exact (Option.some.inj huri).symm
    have hs : sv = "backend-v0" := by
      have h1 : getServiceVersions gen = ["backend-v0"] := by
        simp only [getServiceVersions, he]; decide
      rw [h1, getRandomElemNormal_singleton] at hsv
      exact (Option.some.inj hsv).symm
    have hc : (calls H gen uri).toNat = 1 := by
      have h1 : calls H gen uri = 1 := by
        simp only [calls, getValueAccident, hno]; exact truncInt_one H
      rw [h1]; rfl
    have ha : app 0 = "v0" := by
      have h1 : getAppVersions gen = ["v0"] := by
        simp only [getAppVersions, he]; decide
      have h2 := (hmem 0).2.1
      rw [h1] at h2
      simpa using h2
    have hd : dev 0 = "-0" := by
      have h1 : getDevices gen = ["-0"] := by
        simp only [getDevices, he]; decide
      have h2 := (hmem 0).2.2.2
      rw [h1] at h2
      simpa using h2
    refine ⟨hc, hu, hs, m, st 0, os 0, hmm, (hmem 0).1, (hmem 0).2.2.1, ?_⟩
    subst hu hs
    simp [hc, ha, hd, getValueAccident, hno, List.range_succ_eq_map]

/-- Witness for C8: the tick of a fresh generator with the entropy `1, 1, 1, 1`
under the modelled helpers. -/
theorem FillMetrics_emissions_witness :
    specDeps.randomIntInRange ∧
    ∃ uri serviceVersion out,
      getRandomElemNormal zeroRand.uri (getUris (NewGeneratorTabajara unitEntropy))
        = some uri ∧
      getRandomElemNormal zeroRand.serviceVersion
        (generateItems "backend-v"
          (NewGeneratorTabajara unitEntropy).Entropy.ServiceVersionCount)
        = some serviceVersion ∧
      FillMetrics specDeps zeroRand (NewGeneratorTabajara unitEntropy) = some out ∧
      out.countP Emission.isHTTPRequestsPerServiceVersion
        = (calls specDeps (NewGeneratorTabajara unitEntropy) uri).toNat ∧
      out.countP Emission.isHTTPRequestsPerAppVersion
        = (calls specDeps (NewGeneratorTabajara unitEntropy) uri).toNat ∧
      out.countP Emission.isHTTPRequestsPerDevice
        = (calls specDeps (NewGeneratorTabajara unitEntropy) uri).toNat ∧
      out.countP Emission.isHTTPPendingRequests = 1 ∧
      out.getLast?
        = some (.HTTPPendingRequests [serviceVersion] (.fin zeroRand.randomRangeNormal)) ∧
      ((calls specDeps (NewGeneratorTabajara unitEntropy) uri).toNat = 0 →
        out = [.HTTPPendingRequests [serviceVersion] (.fin zeroRand.randomRangeNormal)]) ∧
      ((NewGeneratorTabajara unitEntropy).Entropy = unitEntropy →
        (∀ k, (NewGeneratorTabajara unitEntropy).entry k = none) →
        (calls specDeps (NewGeneratorTabajara unitEntropy) uri).toNat = 1 ∧
        uri = "/resource/test-0" ∧ serviceVersion = "backend-v0" ∧
        ∃ method status os, method ∈ methods ∧ status ∈ statuses ∧ os ∈ oss ∧
          out = [.HTTPRequestsPerServiceVersion
                    ["/resource/test-0", method, status, "backend-v0"]
                    (zeroRand.getSampleRequestTime 0 "/resource/test-0"),
                  .HTTPRequestsPerAppVersion ["/resource/test-0", method, status, "v0"],
                  .HTTPRequestsPerDevice ["/resource/test-0", method, status, os ++ "-0"],
                  .HTTPPendingRequests ["backend-v0"] (.fin zeroRand.randomRangeNormal)]) :=
  ⟨specDeps_randomIntInRange,
    FillMetrics_emissions specDeps zeroRand (NewGeneratorTabajara unitEntropy)
      specDeps_randomIntInRange⟩

/-- C9: with at least one entropy count equal to 0, whatever the registry (nil
included), every sequence the tick samples from is non-empty (one of the
generated ones is the single fallback item), the index into `methods` is within
bounds when `randomInt` stays below its bound, and the tick runs to its end. -/
theorem FillMetrics_completes_zero_entropy (H : Deps) (R : Rand) (gen : Tabajara)
    (hr : H.randomIntInRange)
    (hz : gen.Entropy.URICount = 0 ∨ gen.Entropy.ServiceVersionCount = 0 ∨
      gen.Entropy.AppVersionCount = 0 ∨ gen.Entropy.DeviceCount = 0) :
    (getUris gen ≠ [] ∧ getServiceVersions gen ≠ [] ∧ getAppVersions gen ≠ [] ∧
      getDevices gen ≠ [] ∧ oss ≠ [] ∧ statuses ≠ []) ∧
    (getUris gen = ["/resource/test-"] ∨ getServiceVersions gen = ["backend-v"] ∨
      getAppVersions gen = ["v"] ∨ getDevices gen = ["-"]) ∧
    (∀ uri, 0 ≤ H.randomInt (H.hash uri : Int) (methods.length : Int) ∧
      H.randomInt (H.hash uri : Int) (methods.length : Int) < (methods.length : Int)) ∧
    (∀ uri, (pickMethod H uri).isSome = true) ∧
    (FillMetrics H R gen).isSome = true := by
  refine ⟨⟨generateItems_ne_nil _ _, generateItems_ne_nil _ _, generateItems_ne_nil _ _,
    generateItems_ne_nil _ _, by decide, by decide⟩, ?_, ?_, ?_, ?_⟩
  · rcases hz with h | h | h | h
    · exact Or.inl (by simp [getUris, generateItems, h])
    · exact Or.inr (Or.inl (by simp [getServiceVersions, generateItems, h]))
    · exact Or.inr (Or.inr (Or.inl (by simp [getAppVersions, generateItems, h])))
    · exact Or.inr (Or.inr (Or.inr (by simp [getDevices, generateItems, h])))
  · intro uri
    exact hr _ _ (by decide)
  · intro uri
    obtain ⟨m, hm, _⟩ := pickMethod_some H hr uri
    simp [hm]
  · obtain ⟨_, _, _, _, _, _, _, _, _, _, _, _, _, _, hout⟩ := FillMetrics_eq H hr R gen
    simp [hout]

/-- Witness for C9: a fresh generator (nil registry) whose four counts are 0. -/
theorem FillMetrics_completes_zero_entropy_witness :
    specDeps.randomIntInRange ∧
    ((NewGeneratorTabajara ⟨0, 0, 0, 0⟩).Entropy.URICount = 0 ∨
      (NewGeneratorTabajara ⟨0, 0, 0, 0⟩).Entropy.ServiceVersionCount = 0 ∨
      (NewGeneratorTabajara ⟨0, 0, 0, 0⟩).Entropy.AppVersionCount = 0 ∨
      (NewGeneratorTabajara ⟨0, 0, 0, 0⟩).Entropy.DeviceCount = 0) ∧
    ((getUris (NewGeneratorTabajara ⟨0, 0, 0, 0⟩) ≠ [] ∧
        getServiceVersions (NewGeneratorTabajara ⟨0, 0, 0, 0⟩) ≠ [] ∧
        getAppVersions (NewGeneratorTabajara ⟨0, 0, 0, 0⟩) ≠ [] ∧
        getDevices (NewGeneratorTabajara ⟨0, 0, 0, 0⟩) ≠ [] ∧ oss ≠ [] ∧ statuses ≠ []) ∧
      (getUris (NewGeneratorTabajara ⟨0, 0, 0, 0⟩) = ["/resource/test-"] ∨
        getServiceVersions (NewGeneratorTabajara ⟨0, 0, 0, 0⟩) = ["backend-v"] ∨
        getAppVersions (NewGeneratorTabajara ⟨0, 0, 0, 0⟩) = ["v"] ∨
        getDevices (NewGeneratorTabajara ⟨0, 0, 0, 0⟩) = ["-"]) ∧
      (∀ uri, 0 ≤ specDeps.randomInt (specDeps.hash uri : Int) (methods.length : Int) ∧
        specDeps.randomInt (specDeps.hash uri : Int) (methods.length : Int)
          < (methods.length : Int)) ∧
      (∀ uri, (pickMethod specDeps uri).isSome = true) ∧
      (FillMetrics specDeps zeroRand (NewGeneratorTabajara ⟨0, 0, 0, 0⟩)).isSome = true) :=
  ⟨specDeps_randomIntInRange, Or.inl rfl,
    FillMetrics_completes_zero_entropy specDeps zeroRand (NewGeneratorTabajara ⟨0, 0, 0, 0⟩)
      specDeps_randomIntInRange (Or.inl rfl)⟩

/-- C10: a tick uses one uri, one service version and one method for all its
calls; the method is `pickMethod` of the uri and one of GET, POST, PUT, DELETE;
the three observations of a call carry the same uri, method and status; the
fourth label of the device increment is the os followed by the device; the
pending-requests set is keyed by the service version of the latency
observations. -/
theorem FillMetrics_label_consistency (H : Deps) (R : Rand) (gen : Tabajara)
    (hr : H.randomIntInRange) :
    ∃ (uri serviceVersion method : String) (status appVersion os device : Nat → String),
      uri ∈ getUris gen ∧ serviceVersion ∈ getServiceVersions gen ∧
      pickMethod H uri = some method ∧ method ∈ ["GET", "POST", "PUT", "DELETE"] ∧
      (∀ i, os i ∈ oss ∧ device i ∈ getDevices gen) ∧
      FillMetrics H R gen =
        some ((List.range (calls H gen uri).toNat).flatMap (fun i =>
          [.HTTPRequestsPerServiceVersion [uri, method, status i, serviceVersion]
              (getValueAccident H gen H.Latency (R.getSampleRequestTime i uri) uri),
            .HTTPRequestsPerAppVersion [uri, method, status i, appVersion i],
            .HTTPRequestsPerDevice [uri, method, status i, os i ++ device i]])
          ++ [.HTTPPendingRequests [serviceVersion] (.fin R.randomRangeNormal)]) := by
  obtain ⟨uri, sv, m, st, app, os, dev, -, -, hurim, hsvm, hm, hmm, hmem, hout⟩ :=
    FillMetrics_eq H hr R gen
  refine ⟨uri, sv, m, st, app, os, dev, hurim, hsvm, hm, ?_,
    fun i => ⟨(hmem i).2.2.1, (hmem i).2.2.2⟩, hout⟩
  simp only [methods, List.mem_cons, List.mem_singleton, List.not_mem_nil, or_false] at hmm ⊢
  tauto

/-- Witness for C10: the tick of the generator with an empty registry and the
entropy `1, 1, 1, 1` under the modelled helpers. -/
theorem FillMetrics_label_consistency_witness :
    specDeps.randomIntInRange ∧
    ∃ (uri serviceVersion method : String) (status appVersion os device : Nat → String),
      uri ∈ getUris emptyGen ∧ serviceVersion ∈ getServiceVersions emptyGen ∧
      pickMethod specDeps uri = some method ∧ method ∈ ["GET", "POST", "PUT", "DELETE"] ∧
      (∀ i, os i ∈ oss ∧ device i ∈ getDevices emptyGen) ∧
      FillMetrics specDeps zeroRand emptyGen =
        some ((List.range (calls specDeps emptyGen uri).toNat).flatMap (fun i =>
          [.HTTPRequestsPerServiceVersion [uri, method, status i, serviceVersion]
              (getValueAccident specDeps emptyGen specDeps.Latency
                (zeroRand.getSampleRequestTime i uri) uri),
            .HTTPRequestsPerAppVersion [uri, method, status i, appVersion i],
            .HTTPRequestsPerDevice [uri, method, status i, os i ++ device i]])
          ++ [.HTTPPendingRequests [serviceVersion] (.fin zeroRand.randomRangeNormal)]) :=
  ⟨specDeps_randomIntInRange,
    FillMetrics_label_consistency specDeps zeroRand emptyGen specDeps_randomIntInRange⟩

end Generator
